import Mathlib

/-!
Verification of the job-orchestration core of the audio-engineer backend
(`src/backend/audio_pipeline.py` and `src/backend/app.py`) against its
natural-language specification.

The embedding is shallow: the status document written by
`AudioJobPipeline.update_status` is modelled as a small JSON value, the
per-job directory tree as lists of file names, and the external
collaborators (separation models, sub-splitters, MIDI transcription,
the Gemini validator, the REAPER project generator) as oracles that
either return a value or raise, exactly as the Python code observes them.
`start_processing_pipeline` is translated stage by stage; the state also
records the ordered trace of documents written to `status.json`, so that
properties about successive snapshots (progress monotonicity, what a
poller can observe) are statable.
-/

/-- JSON values, as far as the status document needs them: `json.dump`
writes the Python dict with its insertion order, so an object is an
ordered association list. -/
inductive Json where
  | null : Json
  | str : String → Json
  | num : Int → Json
  | arr : List Json → Json
  | obj : List (String × Json) → Json

/-- Key lookup in an object's field list (first match, as in a Python
dict, whose keys are unique anyway). -/
def lookupKey : List (String × Json) → String → Option Json
  | [], _ => none
  | (k', v) :: rest, k => if k' = k then some v else lookupKey rest k

/-- `d[k]` on the decoded document (`none` when the key is absent or the
value is not an object). -/
def Json.getKey (j : Json) (k : String) : Option Json :=
  match j with
  | .obj fields => lookupKey fields k
  | _ => none

/-- `d[k] = v` on a Python dict: an existing key keeps its position, a
new key is appended (insertion order). -/
def setPairs : List (String × Json) → String → Json → List (String × Json)
  | [], k, v => [(k, v)]
  | (k', v') :: rest, k, v =>
      if k' = k then (k, v) :: rest else (k', v') :: setPairs rest k v

/-- Assignment `d[k] = v` on a document. The status document is always an
object (it is only ever produced by `update_status` or `json.load` of what
`update_status` wrote), so the non-object branch is never reached. -/
def Json.setKey (j : Json) (k : String) (v : Json) : Json :=
  match j with
  | .obj fields => .obj (setPairs fields k v)
  | _ => j

/-- `d[k]` where the caller knows the key holds an object
(`current_status["artifacts"]` in the merge at audio_pipeline.py:222). -/
def Json.getObj (j : Json) (k : String) : Json :=
  (j.getKey k).getD .null

/-- The contents of one job's directory tree, as far as the pipeline
observes it: the three listed sub-directories (`initialize_job` creates
them up front, so they always exist) and the bytes of `status.json`
(`none` before the first write). Files written directly into the job
directory (`input.wav`, the generated `.RPP`) are never listed by any
status update, so they do not appear in the observable state. -/
structure JobFS where
  stems : List String
  midi : List String
  analysis : List String
  statusFile : Option Json

/-- Pipeline-run state: the job's directory tree, the ordered trace of
every document written to `status.json` during the run, and a step
counter standing in for the wall clock read by `datetime.now()`. -/
structure PState where
  fs : JobFS
  trace : List Json
  time : Nat

/-- A file lands in a directory (`shutil.move` / a collaborator writing
its output): listing a directory never shows a name twice. -/
def addFile (dir : List String) (f : String) : List String :=
  if f ∈ dir then dir else dir ++ [f]

/-- Several files land in a directory, in order. -/
def addFiles (dir : List String) (fs : List String) : List String :=
  fs.foldl addFile dir

/-- `os.remove` of one name. -/
def removeFile (dir : List String) (f : String) : List String :=
  dir.filter (fun g => g ≠ f)

/-- The external collaborators of `start_processing_pipeline`, seen as the
Python code sees them: each call either returns (with the files it left
behind, or a text result) or raises with the exception's text.
  * `umx`: files `separate_stems_umx` leaves in the job directory;
  * `demucs`: on success, the files in `htdemucs/<input>/` when that
    directory was produced (audio_pipeline.py:141 checks its existence);
  * `splitVocals`/`splitDrums`/`splitOther`: files the sub-splitters add
    to `stems/`;
  * `extractMidi`: per input stem name, whether transcription succeeds;
  * `summarize`: per MIDI file name, the textual summary;
  * `validate`: the report `validate_midi_with_gemini` returns for the
    joined summaries;
  * `reaper`: whether `generate_reaper_project` succeeds;
  * `clock`: the `updated_at` string of the n-th status write. -/
structure Env where
  clock : Nat → String
  umx : Except String (List String)
  demucs : Except String (Option (List String))
  splitVocals : Except String (List String)
  splitDrums : Except String (List String)
  splitOther : Except String (List String)
  extractMidi : String → Except String Unit
  summarize : String → Except String String
  validate : String → Except String String
  reaper : Except String Unit

/-- The dict `AudioJobPipeline.update_status` builds (audio_pipeline.py:59-71):
fixed keys in the source's order, the artifact lists read fresh from the
three sub-directories. Note that the dict has no `project` and no
`validation_report` key. -/
def statusDoc (job_id state : String) (progress : Int) (message : String)
    (error : Option String) (updated_at : String) (fs : JobFS) : Json :=
  .obj [("job_id", .str job_id),
        ("state", .str state),
        ("progress", .num progress),
        ("message", .str message),
        ("error", match error with | some e => .str e | none => .null),
        ("updated_at", .str updated_at),
        ("artifacts", .obj [("stems", .arr (fs.stems.map .str)),
                            ("midi", .arr (fs.midi.map .str)),
                            ("analysis", .arr (fs.analysis.map .str))])]

/-- `json.dump(doc, open(status_path, "w"))`: the document replaces the
file's contents and is appended to the run's write trace. -/
def writeStatusFile (st : PState) (doc : Json) : PState :=
  { st with fs := { st.fs with statusFile := some doc }, trace := st.trace ++ [doc] }

/-- `AudioJobPipeline.update_status(state, progress, message, error)`
(audio_pipeline.py:57-73). The Python defaults are `progress=0`,
`message=""`, `error=None`; call sites below pass every argument
explicitly. -/
def update_status (env : Env) (job_id state : String) (progress : Int)
    (message : String) (error : Option String) (st : PState) : PState :=
  let doc := statusDoc job_id state progress message error (env.clock st.time) st.fs
  { writeStatusFile st doc with time := st.time + 1 }

/-- `AudioJobPipeline.get_status` (audio_pipeline.py:83-90): the parsed
`status.json`, or the literal `{"error": "Job not found"}` dict when the
file does not exist. -/
def get_status (fs : JobFS) : Json :=
  match fs.statusFile with
  | some j => j
  | none => .obj [("error", .str "Job not found")]

/-- `AudioJobPipeline.initialize_job` (audio_pipeline.py:38-51), projected
to the observable state: the sub-directories exist (empty lists) and the
first snapshot `("initialized", progress=0)` is written. -/
def initialize_job (env : Env) (job_id : String) (st : PState) : PState :=
  update_status env job_id "initialized" 0 "" none st

/-- Projection: the `state` field of a status document. -/
def docState (j : Json) : Option String :=
  match j.getKey "state" with
  | some (.str s) => some s
  | _ => none

/-- Projection: the `progress` field of a status document. -/
def docProgress (j : Json) : Option Int :=
  match j.getKey "progress" with
  | some (.num n) => some n
  | _ => none

/-- Projection: the `error` field when it holds a (non-null) string. -/
def docErrorStr (j : Json) : Option String :=
  match j.getKey "error" with
  | some (.str s) => some s
  | _ => none

/-- Projection: `d.get("error") is not None` — the key is present with a
non-null value (app.py:107). -/
def docErrorNotNone (j : Json) : Bool :=
  match j.getKey "error" with
  | some .null => false
  | some _ => true
  | none => false

/-- Decode a JSON array of strings. -/
def decodeStrList : Json → Option (List String)
  | .arr js => js.mapM (fun j => match j with | .str s => some s | _ => none)
  | _ => none

/-- Projection: the `project` artifact list of a status document, when
the `artifacts.project` key exists and is a list of names. -/
def docProjectList (j : Json) : Option (List String) :=
  match j.getKey "artifacts" with
  | some a =>
    match a.getKey "project" with
    | some v => decodeStrList v
    | none => none
  | _ => none

/-- The `progress` values of the documents written during a run, in write
order. -/
def progressTrace (st : PState) : List Int :=
  st.trace.filterMap docProgress

/-- Stage 1, separation (audio_pipeline.py:121-145). With `model = "umx"`
the Open-Unmix strategy is tried first; on an exception the code logs and
falls back by setting `separation_model = "demucs"`. `_move_umx_stems`
(audio_pipeline.py:104-109) moves exactly the four canonical stem names
that Open-Unmix left in the job directory into `stems/`. The Demucs branch
runs when the (possibly rewritten) model is `"demucs"` or no strategy has
succeeded; an exception there escapes to the top-level handler. On Demucs
success the `htdemucs/<input>/` output, when that directory exists, is
flattened into `stems/`. -/
def umxAttempt (env : Env) (separation_model : String) (st : PState) :
    String × Bool × PState :=
  if separation_model = "umx" then
    match env.umx with
    | .ok files =>
        let moved := ["vocals.wav", "drums.wav", "bass.wav", "other.wav"].filter
          (fun s => s ∈ files)
        ("umx", true, { st with fs := { st.fs with stems := addFiles st.fs.stems moved } })
    | .error _ => ("demucs", false, st)
  else (separation_model, false, st)

/-- The Demucs attempt (audio_pipeline.py:133-145), entered when the
(possibly rewritten) model is `"demucs"` or no strategy has succeeded
yet. -/
def demucsAttempt (env : Env) (model : String) (success : Bool) (st1 : PState) :
    Except (String × PState) PState :=
  if model = "demucs" ∨ success = false then
    match env.demucs with
    | .error e => .error (e, st1)
    | .ok none => .ok st1
    | .ok (some files) =>
        .ok { st1 with fs := { st1.fs with stems := addFiles st1.fs.stems files } }
  else .ok st1

def sepPhase (env : Env) (separation_model : String) (st : PState) :
    Except (String × PState) PState :=
  match umxAttempt env separation_model st with
  | (model, success, st1) => demucsAttempt env model success st1

/-- One refinement step of stage 2 (audio_pipeline.py:151-167): if the
coarse stem is present, run the sub-splitter (its files land in `stems/`)
and then `os.remove` the coarse stem; an exception escapes to the
top-level handler. An absent coarse stem is skipped. -/
def refineOne (split : Except String (List String)) (name : String) (st : PState) :
    Except (String × PState) PState :=
  if name ∈ st.fs.stems then
    match split with
    | .error e => .error (e, st)
    | .ok files =>
        .ok { st with fs := { st.fs with stems := removeFile (addFiles st.fs.stems files) name } }
  else .ok st

/-- Stage 2, refinement (audio_pipeline.py:149-167): vocals, then drums,
then other. -/
def refinePhase (env : Env) (st : PState) : Except (String × PState) PState :=
  match refineOne env.splitVocals "vocals.wav" st with
  | .error e => .error e
  | .ok st1 =>
    match refineOne env.splitDrums "drums.wav" st1 with
    | .error e => .error e
    | .ok st2 => refineOne env.splitOther "other.wav" st2

/-- The fixed stem-to-MIDI mapping (audio_pipeline.py:173-180), in the
dict's insertion order. -/
def midiMap : List (String × String) :=
  [("vocals_lead.wav", "melody_lead.mid"),
   ("bass.wav", "bass.mid"),
   ("guitars.wav", "guitars.mid"),
   ("keys_synth.wav", "keys_synth.mid"),
   ("harmony.wav", "harmony.mid"),
   ("snare.wav", "drums_notes.mid")]

/-- One iteration of the transcription loop (audio_pipeline.py:184-200)
on `(i, stem_name, midi_name)` with accumulators
`(state, midi_summaries, midi_files_found)`. If the stem is present a
progress update `60 + int(i/len(midi_map) * 20)` is written (the float
expression truncates to `60 + (i * 20) / 6`, the same value as Nat
division for `0 ≤ i < 6`); then `extract_midi_from_audio` runs inside a
`try`: on success the MIDI file exists and its name is appended, then
`summarize_midi_file` runs still inside the same `try`. Any exception in
the item is logged and skipped.

First two named helpers: the per-item progress update of
audio_pipeline.py:187-191, and the transcribed file landing in `midi/`
on `extract_midi_from_audio` success. -/
def midiItemUpdate (env : Env) (job_id : String) (i : Nat) (midi_name : String)
    (st : PState) : PState :=
  update_status env job_id "processing_midi" (60 + Int.ofNat ((i * 20) / midiMap.length))
    ("Extracting MIDI: " ++ midi_name ++ "...") none st

def recordMidiFile (st : PState) (midi_name : String) : PState :=
  { st with fs := { st.fs with midi := addFile st.fs.midi midi_name } }

def midiStep (env : Env) (job_id : String)
    (acc : PState × List String × List String) (item : Nat × String × String) :
    PState × List String × List String :=
  match item, acc with
  | (i, stem_name, midi_name), (st, summaries, files) =>
    if stem_name ∈ st.fs.stems then
      let st1 := midiItemUpdate env job_id i midi_name st
      match env.extractMidi stem_name with
      | .error _ => (st1, summaries, files)
      | .ok _ =>
          let st2 := recordMidiFile st1 midi_name
          let files1 := files ++ [midi_name]
          match env.summarize midi_name with
          | .error _ => (st2, summaries, files1)
          | .ok s => (st2, summaries ++ [s], files1)
    else (st, summaries, files)

/-- Stage 3, the transcription loop over `enumerate(midi_map.items())`
(audio_pipeline.py:182-200). -/
def midiLoop (env : Env) (job_id : String) (items : List (Nat × String × String))
    (acc : PState × List String × List String) : PState × List String × List String :=
  items.foldl (midiStep env job_id) acc

/-- Stage 4, validation (audio_pipeline.py:202-211): only when at least
one summary exists; writes the progress-85 update, calls the external
validator on the joined summaries (an exception escapes), and merges the
report into the current document with a read-modify-write of
`status.json`. -/
def validatePhase (env : Env) (job_id : String) (midi_summaries : List String)
    (st : PState) : Except (String × PState) PState :=
  if midi_summaries.isEmpty then .ok st
  else
    let st1 := update_status env job_id "processing_midi" 85
      "Validating MIDI correctness with Gemini..." none st
    match env.validate (String.intercalate "\n\n" midi_summaries) with
    | .error e => .error (e, st1)
    | .ok report =>
        let doc := (get_status st1.fs).setKey "validation_report" (.str report)
        .ok (writeStatusFile st1 doc)

/-- Stage 5, project generation and the final update
(audio_pipeline.py:213-226): the progress-95 update (already with state
`success`), `generate_reaper_project` (an exception escapes; on success
the `.RPP` lands in the job directory, which no artifact listing scans),
the read-modify-write registering `artifacts["project"] = [rpp_name]`,
and the final `("success", progress=100)` update. -/
def projectPhase (env : Env) (job_id : String) (st : PState) :
    Except (String × PState) PState :=
  let st1 := update_status env job_id "success" 95
    "Generating REAPER Project File..." none st
  let rpp_name := "Project_" ++ job_id.take 8 ++ ".RPP"
  match env.reaper with
  | .error e => .error (e, st1)
  | .ok _ =>
      let cur := get_status st1.fs
      let doc := cur.setKey "artifacts"
        ((cur.getObj "artifacts").setKey "project" (.arr [.str rpp_name]))
      let st2 := writeStatusFile st1 doc
      .ok (update_status env job_id "success" 100
        "Processing complete. Deep stems, MIDI, and REAPER Project are ready." none st2)

/-- The `try` body of `start_processing_pipeline`
(audio_pipeline.py:117-226): the five stages in order, with the three
stage-boundary updates at progress 10, 30 and 60. An `.error (e, st)`
result is an exception with text `e` escaping while the run state is
`st`. -/
def runBody (env : Env) (job_id separation_model : String) (st0 : PState) :
    Except (String × PState) PState :=
  let st1 := update_status env job_id "processing_stems" 10
    ("Starting stem separation (" ++ separation_model ++ ")...") none st0
  match sepPhase env separation_model st1 with
  | .error e => .error e
  | .ok st2 =>
    let st3 := update_status env job_id "processing_stems" 30
      "Refining stems (Vocals, Drums, Instruments)..." none st2
    match refinePhase env st3 with
    | .error e => .error e
    | .ok st4 =>
      let st5 := update_status env job_id "processing_midi" 60
        "Extracting structured MIDI data from stems..." none st4
      match midiLoop env job_id midiMap.enum (st5, [], []) with
      | (st6, midi_summaries, midi_files_found) =>
        match validatePhase env job_id midi_summaries st6 with
        | .error e => .error e
        | .ok st7 =>
          let _ := midi_files_found
          projectPhase env job_id st7

/-- `start_processing_pipeline` (audio_pipeline.py:112-231): the staged
body under the single top-level handler, which writes the terminal
`failed` snapshot with `error=str(e)` and the Python default
`progress=0`. -/
def start_processing_pipeline (env : Env) (job_id separation_model : String)
    (st0 : PState) : PState :=
  match runBody env job_id separation_model st0 with
  | .ok st => st
  | .error (e, st) =>
      update_status env job_id "failed" 0 "An error occurred during processing." (some e) st

/-! ### Basic facts about status documents -/

theorem docState_statusDoc (j s : String) (p : Int) (m : String) (e : Option String)
    (u : String) (fs : JobFS) : docState (statusDoc j s p m e u fs) = some s := rfl

theorem docProgress_statusDoc (j s : String) (p : Int) (m : String) (e : Option String)
    (u : String) (fs : JobFS) : docProgress (statusDoc j s p m e u fs) = some p := rfl

theorem docErrorStr_statusDoc_none (j s : String) (p : Int) (m u : String) (fs : JobFS) :
    docErrorStr (statusDoc j s p m none u fs) = none := rfl

theorem docErrorStr_statusDoc_some (j s : String) (p : Int) (m e u : String) (fs : JobFS) :
    docErrorStr (statusDoc j s p m (some e) u fs) = some e := rfl

theorem validationKey_statusDoc (j s : String) (p : Int) (m : String) (e : Option String)
    (u : String) (fs : JobFS) : (statusDoc j s p m e u fs).getKey "validation_report" = none := by
  cases e <;> rfl

theorem docProjectList_statusDoc (j s : String) (p : Int) (m : String) (e : Option String)
    (u : String) (fs : JobFS) : docProjectList (statusDoc j s p m e u fs) = none := by
  cases e <;> rfl

/-- Setting one key leaves every other key's lookup unchanged. -/
theorem lookupKey_setPairs_ne (l : List (String × Json)) (k k' : String) (v : Json)
    (h : k ≠ k') : lookupKey (setPairs l k v) k' = lookupKey l k' := by
  induction l with
  | nil => simp [setPairs, lookupKey, h]
  | cons hd tl ih =>
      obtain ⟨k0, v0⟩ := hd
      by_cases hk : k0 = k
      · subst hk
        simp [setPairs, lookupKey, h]
      · simp [setPairs, lookupKey, hk, ih]

theorem getKey_setKey_ne (d : Json) (k k' : String) (v : Json) (h : k ≠ k') :
    (d.setKey k v).getKey k' = d.getKey k' := by
  cases d <;> simp [Json.setKey, Json.getKey]
  exact lookupKey_setPairs_ne _ k k' v h

theorem docProgress_setKey (d : Json) (k : String) (v : Json) (h : k ≠ "progress") :
    docProgress (d.setKey k v) = docProgress d := by
  simp [docProgress, getKey_setKey_ne d k "progress" v h]

theorem docState_setKey (d : Json) (k : String) (v : Json) (h : k ≠ "state") :
    docState (d.setKey k v) = docState d := by
  simp [docState, getKey_setKey_ne d k "state" v h]

/-! ### What each stage does to the run state -/

theorem update_status_trace (env : Env) (j s : String) (p : Int) (m : String)
    (e : Option String) (st : PState) : (update_status env j s p m e st).trace =
      st.trace ++ [statusDoc j s p m e (env.clock st.time) st.fs] := rfl

theorem update_status_statusFile (env : Env) (j s : String) (p : Int) (m : String)
    (e : Option String) (st : PState) : (update_status env j s p m e st).fs.statusFile =
      some (statusDoc j s p m e (env.clock st.time) st.fs) := rfl

theorem update_status_stems (env : Env) (j s : String) (p : Int) (m : String)
    (e : Option String) (st : PState) :
    (update_status env j s p m e st).fs.stems = st.fs.stems := rfl

/-- Separation never writes to `status.json`: on success the write trace
is untouched. -/
theorem umxAttempt_trace (env : Env) (mo : String) (st : PState) :
    (umxAttempt env mo st).2.2.trace = st.trace := by
  unfold umxAttempt
  split
  · cases env.umx <;> rfl
  · rfl

theorem demucsAttempt_ok_trace {env : Env} {mo : String} {su : Bool} {st st' : PState}
    (h : demucsAttempt env mo su st = .ok st') : st'.trace = st.trace := by
  unfold demucsAttempt at h
  split at h
  · split at h
    · cases h
    · cases h; rfl
    · cases h; rfl
  · cases h; rfl

theorem sepPhase_ok_trace {env : Env} {mo : String} {st st' : PState}
    (h : sepPhase env mo st = .ok st') : st'.trace = st.trace := by
  unfold sepPhase at h
  rcases hu : umxAttempt env mo st with ⟨m, su, st1⟩
  rw [hu] at h
  have h1 : st1.trace = st.trace := by
    have := umxAttempt_trace env mo st
    rw [hu] at this
    exact this
  rw [demucsAttempt_ok_trace h, h1]

/-- A refinement step never writes to `status.json`. -/
theorem refineOne_ok_trace {sp : Except String (List String)} {name : String}
    {st st' : PState} (h : refineOne sp name st = .ok st') : st'.trace = st.trace := by
  unfold refineOne at h
  split at h
  · split at h
    · cases h
    · cases h; rfl
  · cases h; rfl

/-- Refinement never writes to `status.json`. -/
theorem refinePhase_ok_trace {env : Env} {st st' : PState}
    (h : refinePhase env st = .ok st') : st'.trace = st.trace := by
  unfold refinePhase at h
  split at h
  · cases h
  · rename_i st1 h1
    split at h
    · cases h
    · rename_i st2 h2
      calc st'.trace = st2.trace := refineOne_ok_trace h
        _ = st1.trace := refineOne_ok_trace h2
        _ = st.trace := refineOne_ok_trace h1

/-! ### The transcription loop, characterized item by item

The loop's outcome for one mapped item depends only on that item's own
presence and its own collaborator calls — this is the formal content of
"a single item's failure is logged and skipped". -/

/-- The MIDI file name the loop records for one item, given the stem
listing `S` at loop entry: present and transcribed. -/
def midiFileOf (env : Env) (S : List String) (it : Nat × String × String) :
    Option String :=
  if it.2.1 ∈ S then
    match env.extractMidi it.2.1 with
    | .ok _ => some it.2.2
    | .error _ => none
  else none

/-- The summary the loop retains for one item: present, transcribed and
summarized. -/
def midiSummaryOf (env : Env) (S : List String) (it : Nat × String × String) :
    Option String :=
  if it.2.1 ∈ S then
    match env.extractMidi it.2.1 with
    | .ok _ => (env.summarize it.2.2).toOption
    | .error _ => none
  else none

/-- The progress value the loop writes for one item (only written when
the stem is present). -/
def midiProgOf (S : List String) (it : Nat × String × String) : Option Int :=
  if it.2.1 ∈ S then some (60 + Int.ofNat ((it.1 * 20) / midiMap.length)) else none

theorem midiFileOf_ok {env : Env} {S : List String} {i : Nat} {sname mname : String}
    {u : Unit} (h : sname ∈ S) (hx : env.extractMidi sname = .ok u) :
    midiFileOf env S (i, sname, mname) = some mname := by
  unfold midiFileOf
  dsimp only
  rw [if_pos h, hx]

theorem midiSummaryOf_okOk {env : Env} {S : List String} {i : Nat} {sname mname s : String}
    {u : Unit} (h : sname ∈ S) (hx : env.extractMidi sname = .ok u)
    (hs : env.summarize mname = .ok s) :
    midiSummaryOf env S (i, sname, mname) = some s := by
  unfold midiSummaryOf
  dsimp only
  rw [if_pos h, hx, hs]
  rfl

theorem midiLoop_nil (env : Env) (job : String) (acc : PState × List String × List String) :
    midiLoop env job [] acc = acc := rfl

theorem midiLoop_cons (env : Env) (job : String) (it : Nat × String × String)
    (rest : List (Nat × String × String)) (acc : PState × List String × List String) :
    midiLoop env job (it :: rest) acc = midiLoop env job rest (midiStep env job acc it) := rfl

theorem midiStep_eq_absent {env : Env} {job : String} {st : PState}
    {sums files : List String} {i : Nat} {sname mname : String}
    (h : sname ∉ st.fs.stems) :
    midiStep env job (st, sums, files) (i, sname, mname) = (st, sums, files) := by
  unfold midiStep
  dsimp only
  exact if_neg h

theorem midiStep_eq_error {env : Env} {job : String} {st : PState}
    {sums files : List String} {i : Nat} {sname mname e : String}
    (h : sname ∈ st.fs.stems) (hx : env.extractMidi sname = .error e) :
    midiStep env job (st, sums, files) (i, sname, mname) =
      (midiItemUpdate env job i mname st, sums, files) := by
  unfold midiStep
  dsimp only
  rw [if_pos h, hx]

theorem midiStep_eq_ok_sumError {env : Env} {job : String} {st : PState}
    {sums files : List String} {i : Nat} {sname mname e : String}
    (h : sname ∈ st.fs.stems) (hx : env.extractMidi sname = .ok ())
    (hs : env.summarize mname = .error e) :
    midiStep env job (st, sums, files) (i, sname, mname) =
      (recordMidiFile (midiItemUpdate env job i mname st) mname, sums, files ++ [mname]) := by
  unfold midiStep
  dsimp only
  rw [if_pos h, hx, hs]

theorem midiStep_eq_ok_ok {env : Env} {job : String} {st : PState}
    {sums files : List String} {i : Nat} {sname mname s : String}
    (h : sname ∈ st.fs.stems) (hx : env.extractMidi sname = .ok ())
    (hs : env.summarize mname = .ok s) :
    midiStep env job (st, sums, files) (i, sname, mname) =
      (recordMidiFile (midiItemUpdate env job i mname st) mname, sums ++ [s], files ++ [mname]) := by
  unfold midiStep
  dsimp only
  rw [if_pos h, hx, hs]

theorem midiItemUpdate_stems (env : Env) (job : String) (i : Nat) (mname : String)
    (st : PState) : (midiItemUpdate env job i mname st).fs.stems = st.fs.stems := rfl

theorem midiItemUpdate_trace (env : Env) (job : String) (i : Nat) (mname : String)
    (st : PState) : (midiItemUpdate env job i mname st).trace = st.trace ++
      [statusDoc job "processing_midi" (60 + Int.ofNat ((i * 20) / midiMap.length))
        ("Extracting MIDI: " ++ mname ++ "...") none (env.clock st.time) st.fs] := rfl

theorem recordMidiFile_stems (st : PState) (m : String) :
    (recordMidiFile st m).fs.stems = st.fs.stems := rfl

theorem recordMidiFile_trace (st : PState) (m : String) :
    (recordMidiFile st m).trace = st.trace := rfl

/-- Full characterization of the transcription loop: the stem listing is
untouched; the files found and summaries retained are per-item functions
of that listing and each item's own collaborator results; the loop only
appends `processing_midi` documents to the write trace, one per present
item, with the per-item progress values. -/
theorem midiLoop_spec (env : Env) (job : String) :
    ∀ (items : List (Nat × String × String)) (st : PState) (sums files : List String),
      (midiLoop env job items (st, sums, files)).1.fs.stems = st.fs.stems ∧
      (midiLoop env job items (st, sums, files)).2.1 =
        sums ++ items.filterMap (midiSummaryOf env st.fs.stems) ∧
      (midiLoop env job items (st, sums, files)).2.2 =
        files ++ items.filterMap (midiFileOf env st.fs.stems) ∧
      ∃ d, (midiLoop env job items (st, sums, files)).1.trace = st.trace ++ d ∧
        d.filterMap docProgress = items.filterMap (midiProgOf st.fs.stems) ∧
        ∀ doc ∈ d, docState doc = some "processing_midi" := by
  intro items
  induction items with
  | nil =>
      intro st sums files
      exact ⟨rfl, by simp [midiLoop_nil], by simp [midiLoop_nil],
        [], by simp [midiLoop_nil], by simp, by simp⟩
  | cons it rest ih =>
      intro st sums files
      obtain ⟨i, sname, mname⟩ := it
      rw [midiLoop_cons]
      by_cases hmem : sname ∈ st.fs.stems
      · rcases hx : env.extractMidi sname with e | u
        · -- transcription of this item raised: logged and skipped
          rw [midiStep_eq_error hmem hx]
          obtain ⟨h1, h2, h3, d, hd1, hd2, hd3⟩ :=
            ih (midiItemUpdate env job i mname st) sums files
          rw [midiItemUpdate_stems] at h1 h2 h3 hd2
          refine ⟨h1, ?_, ?_, statusDoc job "processing_midi"
              (60 + Int.ofNat ((i * 20) / midiMap.length))
              ("Extracting MIDI: " ++ mname ++ "...") none (env.clock st.time) st.fs :: d,
            ?_, ?_, ?_⟩
          · rw [h2, List.filterMap_cons_none (by simp [midiSummaryOf, hmem, hx])]
          · rw [h3, List.filterMap_cons_none (by simp [midiFileOf, hmem, hx])]
          · rw [hd1, midiItemUpdate_trace]
            simp
          · rw [List.filterMap_cons_some (docProgress_statusDoc job "processing_midi"
                (60 + Int.ofNat ((i * 20) / midiMap.length))
                ("Extracting MIDI: " ++ mname ++ "...") none (env.clock st.time) st.fs),
              List.filterMap_cons_some (show midiProgOf st.fs.stems (i, sname, mname) =
                some (60 + Int.ofNat ((i * 20) / midiMap.length)) by
                  unfold midiProgOf
                  dsimp only
                  rw [if_pos hmem]), hd2]
          · intro doc hdoc
            rcases List.mem_cons.mp hdoc with h | h
            · rw [h]; exact docState_statusDoc _ _ _ _ _ _ _
            · exact hd3 doc h
        · -- transcription succeeded; the summary may still fail
          rcases hs : env.summarize mname with e | s
          · rw [midiStep_eq_ok_sumError hmem hx hs]
            obtain ⟨h1, h2, h3, d, hd1, hd2, hd3⟩ :=
              ih (recordMidiFile (midiItemUpdate env job i mname st) mname) sums
                (files ++ [mname])
            rw [recordMidiFile_stems, midiItemUpdate_stems] at h1 h2 h3 hd2
            refine ⟨h1, ?_, ?_, statusDoc job "processing_midi"
                (60 + Int.ofNat ((i * 20) / midiMap.length))
                ("Extracting MIDI: " ++ mname ++ "...") none (env.clock st.time) st.fs :: d,
              ?_, ?_, ?_⟩
            · rw [h2, List.filterMap_cons_none
                (by simp [midiSummaryOf, hmem, hx, hs, Except.toOption])]
            · rw [h3, List.filterMap_cons_some (midiFileOf_ok hmem hx),
                List.append_assoc]
              rfl
            · rw [hd1, recordMidiFile_trace, midiItemUpdate_trace]
              simp
            · rw [List.filterMap_cons_some (docProgress_statusDoc job "processing_midi"
                  (60 + Int.ofNat ((i * 20) / midiMap.length))
                  ("Extracting MIDI: " ++ mname ++ "...") none (env.clock st.time) st.fs),
                List.filterMap_cons_some (show midiProgOf st.fs.stems (i, sname, mname) =
                  some (60 + Int.ofNat ((i * 20) / midiMap.length)) by
                    unfold midiProgOf
                    dsimp only
                    rw [if_pos hmem]), hd2]
            · intro doc hdoc
              rcases List.mem_cons.mp hdoc with h | h
              · rw [h]; exact docState_statusDoc _ _ _ _ _ _ _
              · exact hd3 doc h
          · rw [midiStep_eq_ok_ok hmem hx hs]
            obtain ⟨h1, h2, h3, d, hd1, hd2, hd3⟩ :=
              ih (recordMidiFile (midiItemUpdate env job i mname st) mname) (sums ++ [s])
                (files ++ [mname])
            rw [recordMidiFile_stems, midiItemUpdate_stems] at h1 h2 h3 hd2
            refine ⟨h1, ?_, ?_, statusDoc job "processing_midi"
                (60 + Int.ofNat ((i * 20) / midiMap.length))
                ("Extracting MIDI: " ++ mname ++ "...") none (env.clock st.time) st.fs :: d,
              ?_, ?_, ?_⟩
            · rw [h2, List.filterMap_cons_some (midiSummaryOf_okOk hmem hx hs),
                List.append_assoc]
              rfl
            · rw [h3, List.filterMap_cons_some (midiFileOf_ok hmem hx),
                List.append_assoc]
              rfl
            · rw [hd1, recordMidiFile_trace, midiItemUpdate_trace]
              simp
            · rw [List.filterMap_cons_some (docProgress_statusDoc job "processing_midi"
                  (60 + Int.ofNat ((i * 20) / midiMap.length))
                  ("Extracting MIDI: " ++ mname ++ "...") none (env.clock st.time) st.fs),
                List.filterMap_cons_some (show midiProgOf st.fs.stems (i, sname, mname) =
                  some (60 + Int.ofNat ((i * 20) / midiMap.length)) by
                    unfold midiProgOf
                    dsimp only
                    rw [if_pos hmem]), hd2]
            · intro doc hdoc
              rcases List.mem_cons.mp hdoc with h | h
              · rw [h]; exact docState_statusDoc _ _ _ _ _ _ _
              · exact hd3 doc h
      · rw [midiStep_eq_absent hmem]
        obtain ⟨h1, h2, h3, d, hd1, hd2, hd3⟩ := ih st sums files
        refine ⟨h1, ?_, ?_, d, hd1, ?_, hd3⟩
        · rw [h2, List.filterMap_cons_none (by simp [midiSummaryOf, hmem])]
        · rw [h3, List.filterMap_cons_none (by simp [midiFileOf, hmem])]
        · rw [hd2, List.filterMap_cons_none (by simp [midiProgOf, hmem])]

theorem get_status_update (env : Env) (j s : String) (p : Int) (m : String)
    (e : Option String) (st : PState) : get_status (update_status env j s p m e st).fs =
      statusDoc j s p m e (env.clock st.time) st.fs := rfl

/-- `json.dump` projections. -/
theorem writeStatusFile_trace (st : PState) (d : Json) :
    (writeStatusFile st d).trace = st.trace ++ [d] := rfl

theorem writeStatusFile_statusFile (st : PState) (d : Json) :
    (writeStatusFile st d).fs.statusFile = some d := rfl

/-- Validation on success: either skipped outright, or exactly two more
documents appear in the write trace (the progress-85 update and the
merged report), both carrying progress 85. -/
theorem validatePhase_ok_progress {env : Env} {job : String} {sums : List String}
    {st st' : PState} (h : validatePhase env job sums st = .ok st') :
    st'.trace.filterMap docProgress = st.trace.filterMap docProgress ∨
    st'.trace.filterMap docProgress = st.trace.filterMap docProgress ++ [(85 : Int), 85] := by
  unfold validatePhase at h
  split at h
  · cases h
    exact Or.inl rfl
  · rcases hv : env.validate (String.intercalate "\n\n" sums) with e | r <;> rw [hv] at h
    · cases h
    · cases h
      refine Or.inr ?_
      rw [writeStatusFile_trace, update_status_trace, get_status_update,
        List.append_assoc, List.filterMap_append]
      simp only [List.singleton_append]
      rw [List.filterMap_cons_some (docProgress_statusDoc job "processing_midi" 85
          "Validating MIDI correctness with Gemini..." none (env.clock st.time) st.fs),
        List.filterMap_cons_some (show docProgress ((statusDoc job "processing_midi" 85
          "Validating MIDI correctness with Gemini..." none (env.clock st.time)
          st.fs).setKey "validation_report" (.str r)) = some 85 from by
            rw [docProgress_setKey _ _ _ (by decide), docProgress_statusDoc]),
        List.filterMap_nil]

/-- Project generation on success: exactly three more documents appear in
the write trace — the progress-95 update, the merged project entry still
at 95, and the final success document at 100. -/
theorem projectPhase_ok_progress {env : Env} {job : String} {st st' : PState}
    (h : projectPhase env job st = .ok st') :
    st'.trace.filterMap docProgress =
      st.trace.filterMap docProgress ++ [(95 : Int), 95, 100] := by
  unfold projectPhase at h
  rcases hr : env.reaper with e | u <;> rw [hr] at h
  · cases h
  · cases h
    rw [update_status_trace, writeStatusFile_trace, update_status_trace, get_status_update,
      List.append_assoc, List.append_assoc, List.filterMap_append]
    simp only [List.singleton_append]
    rw [List.filterMap_cons_some (docProgress_statusDoc job "success" 95
        "Generating REAPER Project File..." none (env.clock st.time) st.fs),
      List.filterMap_cons_some (show docProgress ((statusDoc job "success" 95
        "Generating REAPER Project File..." none (env.clock st.time) st.fs).setKey
        "artifacts" (((statusDoc job "success" 95 "Generating REAPER Project File..."
          none (env.clock st.time) st.fs).getObj "artifacts").setKey "project"
          (.arr [.str ("Project_" ++ job.take 8 ++ ".RPP")]))) = some 95 from by
            rw [docProgress_setKey _ _ _ (by decide), docProgress_statusDoc]),
      List.filterMap_cons_some (docProgress_statusDoc job "success" 100
        "Processing complete. Deep stems, MIDI, and REAPER Project are ready." none _ _),
      List.filterMap_nil]

/-- The file a successful project phase leaves behind holds the final
`success`/100 document, rebuilt by `update_status` with only the three
listed artifact categories. -/
theorem projectPhase_ok_statusFile {env : Env} {job : String} {st st' : PState}
    (h : projectPhase env job st = .ok st') :
    ∃ u fsf, st'.fs.statusFile = some (statusDoc job "success" 100
      "Processing complete. Deep stems, MIDI, and REAPER Project are ready." none u fsf) := by
  unfold projectPhase at h
  rcases hr : env.reaper with e | u <;> rw [hr] at h
  · cases h
  · cases h
    exact ⟨_, _, update_status_statusFile _ _ _ _ _ _ _⟩

/-! ### When does a run succeed? -/

/-- When Open-Unmix raises, the code rewrites the model to `"demucs"` and
continues: from the separation stage on, the run is the run that would
have been requested with `"demucs"` in the first place. -/
theorem sepPhase_umx_fallback {env : Env} {eu : String} (st : PState)
    (hu : env.umx = .error eu) :
    sepPhase env "umx" st = sepPhase env "demucs" st := by
  unfold sepPhase umxAttempt
  rw [if_pos rfl, if_neg (by decide), hu]

/-- The Demucs attempt never fails when `separate_stems_demucs` returns. -/
theorem demucsAttempt_ok_of {env : Env} {dopt : Option (List String)}
    (mo : String) (su : Bool) (st : PState) (hd : env.demucs = .ok dopt) :
    ∃ st2, demucsAttempt env mo su st = .ok st2 := by
  unfold demucsAttempt
  split
  · rw [hd]
    cases dopt
    · exact ⟨st, rfl⟩
    · exact ⟨_, rfl⟩
  · exact ⟨st, rfl⟩

/-- Separation succeeds for every requested model once
`separate_stems_demucs` returns: either the requested strategy already
succeeded (and Demucs is not consulted), or the Demucs branch runs and
succeeds. -/
theorem sepPhase_ok_of_demucs {env : Env} {dopt : Option (List String)}
    (mo : String) (st : PState) (hd : env.demucs = .ok dopt) :
    ∃ st2, sepPhase env mo st = .ok st2 := by
  unfold sepPhase
  rcases umxAttempt env mo st with ⟨m, su, st1⟩
  exact demucsAttempt_ok_of m su st1 hd

theorem refineOne_ok_of {sp : Except String (List String)} {a : List String}
    (name : String) (st : PState) (h : sp = .ok a) :
    ∃ st', refineOne sp name st = .ok st' := by
  unfold refineOne
  split
  · rw [h]
    exact ⟨_, rfl⟩
  · exact ⟨st, rfl⟩

theorem refinePhase_ok_of {env : Env} {a b c : List String} (st : PState)
    (ha : env.splitVocals = .ok a) (hb : env.splitDrums = .ok b)
    (hc : env.splitOther = .ok c) :
    ∃ st', refinePhase env st = .ok st' := by
  unfold refinePhase
  obtain ⟨st1, h1⟩ := refineOne_ok_of "vocals.wav" st ha
  rw [h1]
  dsimp only
  obtain ⟨st2, h2⟩ := refineOne_ok_of "drums.wav" st1 hb
  rw [h2]
  dsimp only
  exact refineOne_ok_of "other.wav" st2 hc

theorem validatePhase_ok_of {env : Env} {job : String} (sums : List String) (st : PState)
    (hv : ∀ s, ∃ r, env.validate s = .ok r) :
    ∃ st', validatePhase env job sums st = .ok st' := by
  unfold validatePhase
  split
  · exact ⟨st, rfl⟩
  · obtain ⟨r, hr⟩ := hv (String.intercalate "\n\n" sums)
    rw [hr]
    exact ⟨_, rfl⟩

theorem projectPhase_ok_of {env : Env} {job : String} (st : PState)
    (hr : env.reaper = .ok ()) :
    ∃ st', projectPhase env job st = .ok st' := by
  unfold projectPhase
  rw [hr]
  exact ⟨_, rfl⟩

/-- A run whose separation, refinement, validation and project stages all
have working collaborators ends in the `success`/100 document — per-item
transcription failures cannot prevent this, since the loop catches them. -/
theorem runBody_ok_of {env : Env} (job mo : String) (st0 : PState)
    (hsep : ∀ st, ∃ st2, sepPhase env mo st = .ok st2)
    (ha : ∃ a, env.splitVocals = .ok a) (hb : ∃ b, env.splitDrums = .ok b)
    (hc : ∃ c, env.splitOther = .ok c)
    (hv : ∀ s, ∃ r, env.validate s = .ok r) (hr : env.reaper = .ok ()) :
    ∃ stf, runBody env job mo st0 = .ok stf ∧
      ∃ u fsf, stf.fs.statusFile = some (statusDoc job "success" 100
        "Processing complete. Deep stems, MIDI, and REAPER Project are ready." none u fsf) := by
  obtain ⟨a, ha⟩ := ha
  obtain ⟨b, hb⟩ := hb
  obtain ⟨c, hc⟩ := hc
  unfold runBody
  dsimp only
  obtain ⟨st2, h2⟩ := hsep (update_status env job "processing_stems" 10
    ("Starting stem separation (" ++ mo ++ ")...") none st0)
  rw [h2]
  dsimp only
  obtain ⟨st4, h4⟩ := refinePhase_ok_of (update_status env job "processing_stems" 30
    "Refining stems (Vocals, Drums, Instruments)..." none st2) ha hb hc
  rw [h4]
  dsimp only
  rcases hm : midiLoop env job midiMap.enum
    (update_status env job "processing_midi" 60
      "Extracting structured MIDI data from stems..." none st4, [], []) with ⟨st6, sums, files⟩
  dsimp only
  obtain ⟨st7, h7⟩ := validatePhase_ok_of sums st6 hv
  rw [h7]
  dsimp only
  obtain ⟨stf, hf⟩ := projectPhase_ok_of st7 hr
  rw [hf]
  exact ⟨stf, rfl, projectPhase_ok_statusFile hf⟩

/-! ### Progress monotonicity -/

theorem chainLeAppend {l1 l2 : List Int} {B : Int} (h1 : List.Chain' (· ≤ ·) l1)
    (h2 : List.Chain' (· ≤ ·) l2) (hb1 : ∀ x ∈ l1, x ≤ B) (hb2 : ∀ y ∈ l2, B ≤ y) :
    List.Chain' (· ≤ ·) (l1 ++ l2) := by
  rw [List.chain'_append]
  exact ⟨h1, h2, fun x hx y hy =>
    le_trans (hb1 x (List.mem_of_mem_getLast? hx)) (hb2 y (List.mem_of_mem_head? hy))⟩

/-- A `filterMap` whose function can only return `some (g a)` at `a`
yields a sublist of the `g`-image. -/
theorem filterMap_sublist_map {α β : Type} (f : α → Option β) (g : α → β) :
    ∀ l : List α, (∀ a ∈ l, ∀ b, f a = some b → b = g a) →
      List.Sublist (List.filterMap f l) (l.map g) := by
  intro l
  induction l with
  | nil => intro _; simp
  | cons a t ih =>
      intro h
      cases hf : f a with
      | none =>
          rw [List.filterMap_cons_none hf, List.map_cons]
          exact (ih fun x hx => h x (List.Mem.tail _ hx)).cons _
      | some b =>
          rw [List.filterMap_cons_some hf, List.map_cons, h a (List.Mem.head _) b hf]
          exact (ih fun x hx => h x (List.Mem.tail _ hx)).cons₂ _

/-- The per-item progress values the transcription loop can write, for
any stem listing: an increasing subsequence of `60 + ⌊20·i/6⌋`,
`i = 0..5`. -/
theorem midiProgs_chain (S : List String) :
    List.Chain' (· ≤ ·) (midiMap.enum.filterMap (midiProgOf S)) ∧
    ∀ p ∈ midiMap.enum.filterMap (midiProgOf S), p ∈ ([60, 63, 66, 70, 73, 76] : List Int) := by
  have hval : ∀ a ∈ midiMap.enum, ∀ b, midiProgOf S a = some b →
      b = 60 + Int.ofNat ((a.1 * 20) / midiMap.length) := by
    intro a _ b hb
    unfold midiProgOf at hb
    split at hb
    · cases hb; rfl
    · cases hb
  have hsub := filterMap_sublist_map (midiProgOf S)
    (fun it => 60 + Int.ofNat ((it.1 * 20) / midiMap.length)) midiMap.enum hval
  have hmap : midiMap.enum.map (fun it => 60 + Int.ofNat ((it.1 * 20) / midiMap.length)) =
      ([60, 63, 66, 70, 73, 76] : List Int) := by decide
  rw [hmap] at hsub
  refine ⟨List.Chain'.sublist (by norm_num [List.chain'_cons]) hsub, fun p hp => hsub.subset hp⟩

/-- Assembling a successful run's progress values: three boundary values,
then the loop's values (between 60 and 76), then the optional validation
pair, then the project-stage triple. -/
theorem progressChainAssemble {Pm V T : List Int}
    (hPm : List.Chain' (· ≤ ·) Pm)
    (hPmMem : ∀ p ∈ Pm, p ∈ ([60, 63, 66, 70, 73, 76] : List Int))
    (hV : V = [] ∨ V = [85, 85])
    (hT : T = ((([10, 30, 60] : List Int) ++ Pm) ++ V) ++ [95, 95, 100]) :
    List.Chain' (· ≤ ·) T ∧
    ∀ p ∈ T, p ∈ ([10, 30, 60, 63, 66, 70, 73, 76, 85, 95, 100] : List Int) := by
  subst hT
  have hPmLow : ∀ p ∈ Pm, (60 : Int) ≤ p := by
    intro p hp
    have h := hPmMem p hp
    fin_cases h <;> decide
  have hPmHigh : ∀ p ∈ Pm, p ≤ (76 : Int) := by
    intro p hp
    have h := hPmMem p hp
    fin_cases h <;> decide
  have c1 : List.Chain' (· ≤ ·) (([10, 30, 60] : List Int) ++ Pm) :=
    chainLeAppend (by norm_num [List.chain'_cons]) hPm
      (by intro x hx; fin_cases hx <;> decide) hPmLow
  have hc1mem : ∀ x ∈ ([10, 30, 60] : List Int) ++ Pm, x ≤ (76 : Int) := by
    intro x hx
    rcases List.mem_append.mp hx with hx | hx
    · fin_cases hx <;> decide
    · exact hPmHigh x hx
  have c2 : List.Chain' (· ≤ ·) ((([10, 30, 60] : List Int) ++ Pm) ++ V) := by
    rcases hV with rfl | rfl
    · simpa using c1
    · exact chainLeAppend c1 (by norm_num [List.chain'_cons]) hc1mem
        (by intro y hy; fin_cases hy <;> decide)
  have hc2mem : ∀ x ∈ (([10, 30, 60] : List Int) ++ Pm) ++ V, x ≤ (85 : Int) := by
    intro x hx
    rcases List.mem_append.mp hx with hx | hx
    · exact le_trans (hc1mem x hx) (by decide)
    · rcases hV with rfl | rfl
      · simp at hx
      · fin_cases hx <;> decide
  refine ⟨chainLeAppend c2 (by norm_num [List.chain'_cons]) hc2mem
    (by intro y hy; fin_cases hy <;> decide), ?_⟩
  intro p hp
  rcases List.mem_append.mp hp with hp | hp
  · rcases List.mem_append.mp hp with hp | hp
    · rcases List.mem_append.mp hp with hp | hp
      · fin_cases hp <;> decide
      · have h := hPmMem p hp
        fin_cases h <;> decide
    · rcases hV with rfl | rfl
      · simp at hp
      · fin_cases hp <;> decide
  · fin_cases hp <;> decide

/-- C6 (amended): within one successful run, the progress values written
to successive snapshots are monotonically non-decreasing, and every value
is one of 10, 30, 60, the per-item transcription values 63/66/70/73/76
(and 60 again), 85 (written twice when validation runs), 95 (written
twice by the project stage) and 100. -/
theorem C6_progress_monotone_amended (env : Env) (job mo : String) (fs0 : JobFS)
    (stf : PState)
    (h : runBody env job mo { fs := fs0, trace := [], time := 0 } = .ok stf) :
    List.Chain' (· ≤ ·) (progressTrace stf) ∧
    ∀ p ∈ progressTrace stf,
      p ∈ ([10, 30, 60, 63, 66, 70, 73, 76, 85, 95, 100] : List Int) := by
  unfold runBody at h
  dsimp only at h
  rcases hsep : sepPhase env mo (update_status env job "processing_stems" 10
      ("Starting stem separation (" ++ mo ++ ")...") none
      { fs := fs0, trace := [], time := 0 }) with ep | st2 <;> rw [hsep] at h <;>
    dsimp only at h
  · cases h
  rcases href : refinePhase env (update_status env job "processing_stems" 30
      "Refining stems (Vocals, Drums, Instruments)..." none st2) with ep | st4 <;>
    rw [href] at h <;> dsimp only at h
  · cases h
  rcases hm : midiLoop env job midiMap.enum (update_status env job "processing_midi" 60
      "Extracting structured MIDI data from stems..." none st4, [], [])
    with ⟨st6, sums, files⟩
  rw [hm] at h
  try dsimp only at h
  rcases hval : validatePhase env job sums st6 with ep | st7 <;> rw [hval] at h <;>
    try dsimp only at h
  · cases h
  have hf5 : (update_status env job "processing_midi" 60
      "Extracting structured MIDI data from stems..." none st4).trace.filterMap docProgress
      = [(10 : Int), 30, 60] := by
    rw [update_status_trace, refinePhase_ok_trace href, update_status_trace,
      sepPhase_ok_trace hsep, update_status_trace]
    show List.filterMap docProgress (([] ++ [_]) ++ [_] ++ [_]) = _
    simp only [List.nil_append, List.cons_append, List.singleton_append]
    rw [List.filterMap_cons_some (docProgress_statusDoc _ _ _ _ _ _ _),
      List.filterMap_cons_some (docProgress_statusDoc _ _ _ _ _ _ _),
      List.filterMap_cons_some (docProgress_statusDoc _ _ _ _ _ _ _),
      List.filterMap_nil]
  obtain ⟨hstems, hsums, hfiles, d, hd1, hd2, hd3⟩ := midiLoop_spec env job midiMap.enum
    (update_status env job "processing_midi" 60
      "Extracting structured MIDI data from stems..." none st4) [] []
  rw [hm] at hd1
  dsimp only at hd1
  have h6 : st6.trace.filterMap docProgress = ([(10 : Int), 30, 60] ++
      midiMap.enum.filterMap (midiProgOf (update_status env job "processing_midi" 60
        "Extracting structured MIDI data from stems..." none st4).fs.stems)) := by
    rw [hd1, List.filterMap_append, hf5, hd2]
  have hvp := validatePhase_ok_progress hval
  have hpp := projectPhase_ok_progress h
  obtain ⟨hPmChain, hPmMem⟩ := midiProgs_chain (update_status env job "processing_midi" 60
    "Extracting structured MIDI data from stems..." none st4).fs.stems
  rcases hvp with hvp | hvp
  · exact progressChainAssemble hPmChain hPmMem (Or.inl rfl)
      (by show stf.trace.filterMap docProgress = _
          rw [hpp, hvp, h6, List.append_nil])
  · exact progressChainAssemble hPmChain hPmMem (Or.inr rfl)
      (by show stf.trace.filterMap docProgress = _
          rw [hpp, hvp, h6])

/-- C5: transcription isolation. For the loop as the pipeline invokes it:
(1)/(2) the files found and summaries retained are computed item by item
from each item's own presence and its own collaborator calls, so no
item's failure influences another item; (3) a failed item contributes no
file and no summary; (4) every present item whose own transcription
succeeds is in the result, whatever happens to the other items; (5) the
loop writes only `processing_midi` documents — it never sets the state to
`failed`. -/
theorem C5_transcription_isolation (env : Env) (job : String) (st : PState) :
    (midiLoop env job midiMap.enum (st, [], [])).2.2 =
      midiMap.enum.filterMap (midiFileOf env st.fs.stems) ∧
    (midiLoop env job midiMap.enum (st, [], [])).2.1 =
      midiMap.enum.filterMap (midiSummaryOf env st.fs.stems) ∧
    (∀ it ∈ midiMap.enum, ∀ e, env.extractMidi it.2.1 = .error e →
      midiFileOf env st.fs.stems it = none ∧ midiSummaryOf env st.fs.stems it = none) ∧
    (∀ it ∈ midiMap.enum, it.2.1 ∈ st.fs.stems → ∀ u, env.extractMidi it.2.1 = .ok u →
      it.2.2 ∈ (midiLoop env job midiMap.enum (st, [], [])).2.2) ∧
    ∃ d, (midiLoop env job midiMap.enum (st, [], [])).1.trace = st.trace ++ d ∧
      ∀ doc ∈ d, docState doc = some "processing_midi" := by
  obtain ⟨h1, h2, h3, d, hd1, hd2, hd3⟩ := midiLoop_spec env job midiMap.enum st [] []
  have hfiles : (midiLoop env job midiMap.enum (st, [], [])).2.2 =
      midiMap.enum.filterMap (midiFileOf env st.fs.stems) := by simpa using h3
  refine ⟨hfiles, by simpa using h2, ?_, ?_, d, hd1, hd3⟩
  · intro it _ e he
    constructor
    · unfold midiFileOf
      rw [he]
      split <;> rfl
    · unfold midiSummaryOf
      rw [he]
      split <;> rfl
  · intro it hit hmem u hu
    obtain ⟨i, sname, mname⟩ := it
    rw [hfiles]
    exact List.mem_filterMap.mpr ⟨(i, sname, mname), hit, midiFileOf_ok hmem hu⟩

/-- C4: separation fallback. With the requested strategy `"umx"` failing:
the run is, from the separation stage on, identical to the run requested
with the default `"demucs"`; if Demucs succeeds (and the remaining
collaborators work) the job still ends with the `success`/100 snapshot;
if Demucs also fails, the job ends `failed` with the error text of the
Demucs exception in the non-null `error` field. -/
theorem C4_separation_fallback (env : Env) (job : String) (st0 : PState) (eu : String)
    (hu : env.umx = .error eu) :
    (∀ st, sepPhase env "umx" st = sepPhase env "demucs" st) ∧
    ((∃ dopt, env.demucs = .ok dopt) → (∃ a, env.splitVocals = .ok a) →
      (∃ b, env.splitDrums = .ok b) → (∃ c, env.splitOther = .ok c) →
      (∀ s, ∃ r, env.validate s = .ok r) → env.reaper = .ok () →
      ∃ u fsf, (start_processing_pipeline env job "umx" st0).fs.statusFile =
        some (statusDoc job "success" 100
          "Processing complete. Deep stems, MIDI, and REAPER Project are ready."
          none u fsf)) ∧
    (∀ ed, env.demucs = .error ed →
      ∃ u fsf, (start_processing_pipeline env job "umx" st0).fs.statusFile =
        some (statusDoc job "failed" 0 "An error occurred during processing."
          (some ed) u fsf)) := by
  refine ⟨fun st => sepPhase_umx_fallback st hu, ?_, ?_⟩
  · intro hd ha hb hc hv hr
    obtain ⟨dopt, hd⟩ := hd
    obtain ⟨stf, hok, hfile⟩ := runBody_ok_of job "umx" st0
      (fun st => sepPhase_ok_of_demucs "umx" st hd) ha hb hc hv hr
    unfold start_processing_pipeline
    rw [hok]
    exact hfile
  · intro ed hed
    have hsep : sepPhase env "umx" (update_status env job "processing_stems" 10
        ("Starting stem separation (" ++ "umx" ++ ")...") none st0) = .error (ed,
        update_status env job "processing_stems" 10
          ("Starting stem separation (" ++ "umx" ++ ")...") none st0) := by
      unfold sepPhase umxAttempt
      rw [if_pos rfl, hu]
      dsimp only
      unfold demucsAttempt
      rw [if_pos (Or.inl rfl), hed]
    unfold start_processing_pipeline runBody
    dsimp only
    rw [hsep]
    exact ⟨_, _, rfl⟩

/-- C10: when an exception escapes a stage, the one terminal snapshot the
handler writes is `state="failed"` with `error` the exception's text and
`progress` falling back to the Python default `0`, whatever progress had
been reached. -/
theorem C10_failure_snapshot (env : Env) (job mo : String) (st0 : PState)
    (e : String) (stE : PState)
    (h : runBody env job mo st0 = .error (e, stE)) :
    (start_processing_pipeline env job mo st0).fs.statusFile =
      some (statusDoc job "failed" 0 "An error occurred during processing."
        (some e) (env.clock stE.time) stE.fs) ∧
    docState (statusDoc job "failed" 0 "An error occurred during processing."
      (some e) (env.clock stE.time) stE.fs) = some "failed" ∧
    docProgress (statusDoc job "failed" 0 "An error occurred during processing."
      (some e) (env.clock stE.time) stE.fs) = some 0 ∧
    docErrorStr (statusDoc job "failed" 0 "An error occurred during processing."
      (some e) (env.clock stE.time) stE.fs) = some e := by
  unfold start_processing_pipeline
  rw [h]
  exact ⟨rfl, docState_statusDoc _ _ _ _ _ _ _, docProgress_statusDoc _ _ _ _ _ _ _,
    docErrorStr_statusDoc_some _ _ _ _ _ _ _⟩

/-! ### Write/read round-trip (Status Store) -/

structure Snapshot where
  job_id : String
  state : String
  progress : Int
  message : String
  error : Option String
  updated_at : String
  stems : List String
  midi : List String
  analysis : List String
deriving DecidableEq

def decodeStr : Json → Option String
  | .str s => some s
  | _ => none

def decodeErrField : Json → Option (Option String)
  | .null => some none
  | .str s => some (some s)
  | _ => none

def decodeNum : Json → Option Int
  | .num n => some n
  | _ => none

def decodeSnapshot (j : Json) : Option Snapshot := do
  let jid ← (j.getKey "job_id").bind decodeStr
  let st ← (j.getKey "state").bind decodeStr
  let p ← (j.getKey "progress").bind decodeNum
  let m ← (j.getKey "message").bind decodeStr
  let e ← (j.getKey "error").bind decodeErrField
  let u ← (j.getKey "updated_at").bind decodeStr
  let a ← j.getKey "artifacts"
  let stems ← (a.getKey "stems").bind decodeStrList
  let midi ← (a.getKey "midi").bind decodeStrList
  let analysis ← (a.getKey "analysis").bind decodeStrList
  pure ⟨jid, st, p, m, e, u, stems, midi, analysis⟩

theorem decodeStrList_map (l : List String) : decodeStrList (.arr (l.map .str)) = some l := by
  induction l with
  | nil => rfl
  | cons a t ih =>
      simp only [decodeStrList] at ih ⊢
      rw [List.map_cons, List.mapM_cons, ih]
      rfl

theorem decodeSnapshot_statusDoc (jid st : String) (p : Int) (m : String)
    (e : Option String) (u : String) (fs : JobFS) :
    decodeSnapshot (statusDoc jid st p m e u fs) =
      some ⟨jid, st, p, m, e, u, fs.stems, fs.midi, fs.analysis⟩ := by
  cases e <;>
    simp [decodeSnapshot, statusDoc, Json.getKey, lookupKey, decodeStr, decodeErrField,
      decodeNum, decodeStrList_map, Option.bind]

/-- C8: `writeStatus` followed by `readStatus` of the same job with no
intervening filesystem change returns exactly the document just written,
and parsing that document back yields a snapshot identical, field for
field, to the one serialized. -/
theorem C8_write_read_roundtrip (env : Env) (job state : String) (progress : Int)
    (message : String) (error : Option String) (st : PState) :
    get_status (update_status env job state progress message error st).fs =
      statusDoc job state progress message error (env.clock st.time) st.fs ∧
    decodeSnapshot (get_status (update_status env job state progress message error st).fs) =
      some ⟨job, state, progress, message, error, env.clock st.time,
        st.fs.stems, st.fs.midi, st.fs.analysis⟩ :=
  ⟨rfl, by rw [get_status_update, decodeSnapshot_statusDoc]⟩

/-! ### The job-status endpoint (app.py:99-113) -/

/-- Python's `"error" in status and status["error"] == "Job not found"`
(app.py:110). -/
def isNotFoundMarker (j : Json) : Bool :=
  match j.getKey "error" with
  | some (.str s) => s == "Job not found"
  | _ => false

/-- `get_job_status` (app.py:99-113): read the status, return 400 when
`status.get("error") is not None`, else 404 when the document is the
`Job not found` marker, else 200 with the document. -/
def get_job_status (fs : JobFS) : Nat × Json :=
  let status := get_status fs
  if docErrorNotNone status then (400, status)
  else if isNotFoundMarker status then (404, status)
  else (200, status)

/-- C2 (what the code actually does): an unknown job — no `status.json` —
is answered with HTTP 400 carrying the `Job not found` document, because
the `error is not None` check at app.py:107 already matches the marker
dict that `get_status` returns; the dedicated 404 branch at app.py:110-111
is unreachable, and every response is 400 or 200. -/
theorem C2_unknown_job_gets_400 :
    (get_job_status { stems := [], midi := [], analysis := [], statusFile := none }).1 = 400 ∧
    (get_job_status { stems := [], midi := [], analysis := [], statusFile := none }).2 =
      .obj [("error", .str "Job not found")] ∧
    (∀ fs : JobFS, ∀ j, fs.statusFile = some j → docErrorNotNone j = true →
      (get_job_status fs).1 = 400) ∧
    ∀ fs : JobFS, (get_job_status fs).1 = 400 ∨ (get_job_status fs).1 = 200 := by
  refine ⟨rfl, rfl, ?_, ?_⟩
  · intro fs j hj he
    unfold get_job_status
    dsimp only
    have hs : get_status fs = j := by
      unfold get_status
      rw [hj]
    rw [hs, if_pos he]
  intro fs
  unfold get_job_status
  dsimp only
  split
  · exact Or.inl rfl
  · rename_i h1
    split
    · rename_i h2
      exfalso
      rcases hk : (get_status fs).getKey "error" with _ | v
      · simp only [isNotFoundMarker, hk] at h2
        exact Bool.false_ne_true h2
      · cases v <;> simp only [isNotFoundMarker, docErrorNotNone, hk] at h1 h2 <;>
          first
            | exact Bool.false_ne_true h2
            | exact h1 trivial
    · exact Or.inr rfl

/-! ### Chat follow-up routing (app.py:42, 209-225) -/

/-- The provider recorded for a session, with `dict.get`'s default:
`_session_providers.get(sessionId, "gemini")` (app.py:218). -/
def providerFor (sessions : List (String × String)) (sessionId : String) : String :=
  match sessions.lookup sessionId with
  | some p => p
  | none => "gemini"

/-- Which adapter `chat_reply` dispatches to (app.py:218-222): the OpenAI
adapter exactly when the recorded tag is `"openai"`, otherwise the Gemini
adapter. The routing itself is a total function — a missing mapping never
raises. -/
def chat_dispatch (sessions : List (String × String)) (sessionId : String) : String :=
  if providerFor sessions sessionId = "openai" then "openai" else "gemini"

/-- C9: a session id with no recorded mapping silently resolves to the
default Gemini adapter; a session id recorded by the analyze endpoint
(which only ever stores `"gemini"` or `"openai"`, app.py:170 and 181) is
dispatched to its recorded provider. -/
theorem C9_session_routing (sessions : List (String × String)) (sid : String) :
    (sessions.lookup sid = none → chat_dispatch sessions sid = "gemini") ∧
    (∀ p, sessions.lookup sid = some p → (p = "gemini" ∨ p = "openai") →
      chat_dispatch sessions sid = p) := by
  constructor
  · intro h
    unfold chat_dispatch providerFor
    rw [h, if_neg (by decide)]
  · intro p hp hor
    unfold chat_dispatch providerFor
    rw [hp]
    rcases hor with rfl | rfl
    · rw [if_neg (by decide)]
    · rw [if_pos rfl]

/-! ### How `update_status` writes the file (C7) -/

/-- Filesystem operations a writer can perform on the job directory. -/
inductive FileOp where
  | openTrunc : String → FileOp
  | dumpTo : String → FileOp
  | renameTo : String → String → FileOp
deriving DecidableEq

def FileOp.isRename : FileOp → Bool
  | .renameTo _ _ => true
  | _ => false

/-- The file operations `update_status` performs (audio_pipeline.py:72-73):
`open(self.status_path, "w")` — which truncates the file in place — then
`json.dump` into that handle. No temporary file and no rename appear in
the source. -/
def update_status_ops (status_path : String) : List FileOp :=
  [.openTrunc status_path, .dumpTo status_path]

/-- What a concurrent reader of the status file can observe. -/
inductive FileView where
  | absent : FileView
  | torn : FileView
  | full : FileView
deriving DecidableEq

/-- Effect of one operation on a reader's view of the file at `path`:
truncating `path` in place leaves a torn (empty or partially flushed)
document until the dump completes; renaming a fully written temporary
onto `path` installs a complete document in one step. -/
def applyOp (path : String) (v : FileView) (op : FileOp) : FileView :=
  match op with
  | .openTrunc p => if p = path then .torn else v
  | .dumpTo p => if p = path then .full else v
  | .renameTo _ dst => if dst = path then .full else v

/-- Every view a reader can observe while the operations run, the
starting view included. -/
def viewsDuring (path : String) (v0 : FileView) (ops : List FileOp) : List FileView :=
  ops.scanl (applyOp path) v0

/-- The claimed property: the snapshot is persisted by writing a
temporary file and renaming it over the status path (or an equivalent
mechanism), so that a reader never observes a torn document. -/
def atomicWrite (ops : List FileOp) (path : String) : Prop :=
  (∃ tmp, tmp ≠ path ∧ FileOp.renameTo tmp path ∈ ops) ∧
  ∀ v ∈ viewsDuring path FileView.full ops, v ≠ FileView.torn

/-- C7 counterexample: `update_status` is not atomic — it performs no
rename at all, and a reader who opens `status.json` between the in-place
truncation and the dump observes a torn document. -/
theorem C7_not_atomic_counterexample :
    atomicWrite (update_status_ops "status.json") "status.json" = False ∧
    viewsDuring "status.json" FileView.full (update_status_ops "status.json") =
      [FileView.full, FileView.torn, FileView.full] := by
  constructor
  · apply eq_false
    rintro ⟨⟨tmp, _, hmem⟩, _⟩
    simp [update_status_ops] at hmem
  · rfl

/-- C7 (amended): `update_status` persists the snapshot by opening
`status.json` for writing — truncating it in place — and dumping the
document directly into it, with no temporary file and no rename; between
the truncation and the dump a concurrent reader observes a torn
document. -/
theorem C7_write_direct_amended (p : String) :
    update_status_ops p = [FileOp.openTrunc p, FileOp.dumpTo p] ∧
    (update_status_ops p).all (fun op => !op.isRename) = true ∧
    FileView.torn ∈ viewsDuring p FileView.full (update_status_ops p) := by
  refine ⟨rfl, rfl, ?_⟩
  simp [viewsDuring, update_status_ops, List.scanl, applyOp]

/-! ### Concrete runs -/

/-- The job tree right after `initialize_job`: empty sub-directories,
before the pipeline's first write. -/
def fsInit : JobFS := { stems := [], midi := [], analysis := [], statusFile := none }

def psInit (fs : JobFS) : PState := { fs := fs, trace := [], time := 0 }

/-- Scenario A (spec §8): job id `"abc123"`, strategy `"demucs"`, an
input with a vocal+drum+other mix — Demucs yields the four canonical
stems and every collaborator succeeds. -/
def envA : Env where
  clock := fun n => "t" ++ toString n
  umx := .ok []
  demucs := .ok (some ["vocals.wav", "drums.wav", "bass.wav", "other.wav"])
  splitVocals := .ok ["vocals_lead.wav", "vocals_backing.wav"]
  splitDrums := .ok ["kick.wav", "snare.wav", "hats.wav"]
  splitOther := .ok ["guitars.wav", "keys_synth.wav", "harmony.wav"]
  extractMidi := fun _ => .ok ()
  summarize := fun m => .ok ("summary of " ++ m)
  validate := fun _ => .ok "validation ok"
  reaper := .ok ()

def psA : PState := psInit ((initialize_job envA "abc123" (psInit fsInit)).fs)

def runA : PState := start_processing_pipeline envA "abc123" "demucs" psA

/-- A run whose separation succeeds but leaves no output directory: no
stems, hence no transcription items and zero summaries. -/
def envB : Env := { envA with demucs := .ok none }

def runB : PState := start_processing_pipeline envB "nostems" "demucs" (psInit fsInit)

/-- C1 (what the code actually does on scenario A): the final snapshot
read after completion has state `success` and progress 100, but its
artifacts hold no `project` key at all — the final `update_status` at
audio_pipeline.py:226 rebuilds the artifacts dict from only the
stems/midi/analysis listings, discarding the project entry merged one
write earlier. That entry, `["Project_abc123.RPP"]` (built from
`job_id[:8]`, which for the six-character id `"abc123"` is the whole id,
not an eight-character prefix), exists only in the next-to-last document
of the write trace. -/
theorem C1_scenarioA_final_snapshot :
    runA.fs.statusFile.map docState = some (some "success") ∧
    runA.fs.statusFile.map docProgress = some (some 100) ∧
    runA.fs.statusFile.map docProjectList = some none ∧
    (runA.trace.map docProjectList).getD 12 none = some ["Project_abc123.RPP"] ∧
    runA.trace.length = 14 := by
  exact ⟨rfl, rfl, rfl, by decide, rfl⟩

/-- C3 (what the code actually does): the final snapshot never contains a
`validation_report` key. On scenario A the validation stage ran (six
summaries; the report is merged into the trace's 11th document) but the
progress-95 update of the project stage immediately rewrites
`status.json` without the key, so the final snapshot has none. On the
zero-summary run the stage is skipped and no document ever carries the
key — that half of the claim holds. -/
theorem C3_validation_report_dropped :
    runA.fs.statusFile.map (fun j => (j.getKey "validation_report").isSome) = some false ∧
    runA.trace.map (fun j => (j.getKey "validation_report").isSome) =
      [false, false, false, false, false, false, false, false, false, false,
        true, false, false, false] ∧
    (85 : Int) ∈ progressTrace runA ∧
    runB.fs.statusFile.map (fun j => (j.getKey "validation_report").isSome) = some false ∧
    runB.trace.map (fun j => (j.getKey "validation_report").isSome) =
      [false, false, false, false, false, false] := by
  exact ⟨rfl, by decide, by decide, rfl, by decide⟩

/-- The claim's reading of the milestone list: every progress value a
run writes is one of the six milestones. -/
def followsMilestones (st : PState) : Prop :=
  ∀ p ∈ progressTrace st, p ∈ ([10, 30, 60, 85, 95, 100] : List Int)

/-- C6 counterexample: scenario A is a successful run, yet its write
trace contains the per-item transcription values 63, 66, 70, 73, 76 and
duplicated 85/95 — it does not follow the milestone sequence
10,30,60,85,95,100. -/
theorem C6_milestones_counterexample :
    progressTrace runA = [10, 30, 60, 60, 63, 66, 70, 73, 76, 85, 85, 95, 95, 100] ∧
    followsMilestones runA = False := by
  refine ⟨by decide, eq_false ?_⟩
  intro h
  exact absurd (h 63 (by decide)) (by decide)

def runBodyA : Except (String × PState) PState :=
  runBody envA "abc123" "demucs" { fs := psA.fs, trace := [], time := 0 }

def stfA : PState :=
  match runBodyA with
  | .ok s => s
  | .error p => p.2

theorem C6_progress_monotone_witness :
    List.Chain' (· ≤ ·) (progressTrace stfA) ∧
    ∀ p ∈ progressTrace stfA,
      p ∈ ([10, 30, 60, 63, 66, 70, 73, 76, 85, 95, 100] : List Int) :=
  C6_progress_monotone_amended envA "abc123" "demucs" psA.fs stfA rfl

/-- Scenario for the fallback: the requested `"umx"` strategy raises,
Demucs (and everything downstream) works. -/
def envU : Env := { envA with umx := .error "umx broke" }

/-- Both separation strategies raise. -/
def envF : Env := { envA with umx := .error "umx broke", demucs := .error "demucs broke" }

theorem C4_separation_fallback_witness :
    (∃ u fsf, (start_processing_pipeline envU "job4" "umx" (psInit fsInit)).fs.statusFile =
      some (statusDoc "job4" "success" 100
        "Processing complete. Deep stems, MIDI, and REAPER Project are ready." none u fsf)) ∧
    (∃ u fsf, (start_processing_pipeline envF "job4" "umx" (psInit fsInit)).fs.statusFile =
      some (statusDoc "job4" "failed" 0 "An error occurred during processing."
        (some "demucs broke") u fsf)) :=
  ⟨(C4_separation_fallback envU "job4" (psInit fsInit) "umx broke" rfl).2.1
      ⟨_, rfl⟩ ⟨_, rfl⟩ ⟨_, rfl⟩ ⟨_, rfl⟩ (fun _ => ⟨_, rfl⟩) rfl,
    (C4_separation_fallback envF "job4" (psInit fsInit) "umx broke" rfl).2.2
      "demucs broke" rfl⟩

/-- A run whose separation raises, for the top-level handler. -/
def envC10 : Env := { envA with demucs := .error "boom" }

def stErr : PState :=
  update_status envC10 "job10" "processing_stems" 10
    ("Starting stem separation (" ++ "demucs" ++ ")...") none (psInit fsInit)

theorem C10_failure_snapshot_witness :
    (start_processing_pipeline envC10 "job10" "demucs" (psInit fsInit)).fs.statusFile =
      some (statusDoc "job10" "failed" 0 "An error occurred during processing."
        (some "boom") (envC10.clock stErr.time) stErr.fs) ∧
    docState (statusDoc "job10" "failed" 0 "An error occurred during processing."
      (some "boom") (envC10.clock stErr.time) stErr.fs) = some "failed" ∧
    docProgress (statusDoc "job10" "failed" 0 "An error occurred during processing."
      (some "boom") (envC10.clock stErr.time) stErr.fs) = some 0 ∧
    docErrorStr (statusDoc "job10" "failed" 0 "An error occurred during processing."
      (some "boom") (envC10.clock stErr.time) stErr.fs) = some "boom" :=
  C10_failure_snapshot envC10 "job10" "demucs" (psInit fsInit) "boom" stErr rfl
